import Mathlib

set_option maxHeartbeats 1000000

/-!
Shallow embedding of `src/main.py` (JumpCloud auto-binder).

The script has five parts relevant here:
string normalization and user matching (lines 120-121, 137-152),
the paginated fetcher `get_all` (lines 23-50),
the association manager `bind_user` / `unbind_user` (lines 63-107),
and the recency filter `was_created_within_last_24_hours` (lines 110-117)
together with the orchestrator's filter (line 134).

HTTP traffic is modelled by explicit oracles: the paginated fetcher takes
a function from the `skip` query parameter to the response (`none` models a
`requests.exceptions.RequestException`, `some items` the extracted item
list), and the association manager takes a deterministic service that maps
the history of requests made so far plus the next request to a status code.
Python `datetime` values are modelled as microsecond counts on a proleptic
Gregorian timeline, matching `datetime` subtraction exactly.
-/

/-! ### Python string primitives -/

/-- Scanner for Python `str.replace(pat, "")` with pattern `p :: ps`: while
`skip > 0` the scanner is inside a matched occurrence and drops characters;
at `skip = 0` it emits the current character unless a fresh occurrence of
the pattern starts here, in which case it drops the pattern's length. -/
def replaceDelAux (p : Char) (ps : List Char) : Nat → List Char → List Char
  | _, [] => []
  | skip + 1, _ :: rest => replaceDelAux p ps skip rest
  | 0, c :: rest =>
    if (p :: ps).isPrefixOf (c :: rest) then replaceDelAux p ps ps.length rest
    else c :: replaceDelAux p ps 0 rest

/-- Python `str.replace(pat, "")` for the non-empty pattern `p :: ps`:
a single left-to-right pass over the original string, removing each
non-overlapping occurrence (removed parts are not rescanned). -/
def replaceDel (p : Char) (ps s : List Char) : List Char :=
  replaceDelAux p ps 0 s

/-- Python `str.lower()` (ASCII case mapping, which is all the script uses). -/
def pyLower (s : List Char) : List Char := s.map Char.toLower

/-- Python `sub in s` for strings: contiguous-substring containment. -/
def isSubstr (p : List Char) : List Char → Bool
  | [] => p.isEmpty
  | c :: rest => p.isPrefixOf (c :: rest) || isSubstr p rest

/-! ### Matcher (`normalize_hostname`, main lines 137-152) -/

/-- `main.py` line 121 on a character list:
`name.replace("WIN-", "").replace("-", "").replace("_", "").lower()`. -/
def normalize_hostnameL (name : List Char) : List Char :=
  pyLower (replaceDel '_' [] (replaceDel '-' [] (replaceDel 'W' ['I', 'N', '-'] name)))

/-- `normalize_hostname` from `main.py` lines 120-121. -/
def normalize_hostname (name : String) : String :=
  String.mk (normalize_hostnameL name.data)

/-- A user record: `user.get("username", "")` defaults a missing key to `""`,
so the field is an `Option`. -/
structure UserRec where
  id : Nat
  username : Option String
deriving DecidableEq

/-- `main.py` line 149:
`user.get("username", "").lower().replace(".", "").replace("_", "")`. -/
def normalize_usernameL (username : Option String) : List Char :=
  replaceDel '_' [] (replaceDel '.' [] (pyLower (username.getD "").data))

/-- `main.py` lines 139-140: `system.get("hostname", "").lower()` followed by
`normalize_hostname`. -/
def clean_name_of (hostname : Option String) : List Char :=
  normalize_hostnameL (pyLower (hostname.getD "").data)

/-- `main.py` lines 147-152: the first user (collection order) whose
normalized username is a substring of the cleaned hostname. -/
def find_match (users : List UserRec) (clean_name : List Char) : Option UserRec :=
  users.find? (fun user => isSubstr (normalize_usernameL user.username) clean_name)

/-! ### Association manager (`bind_user`, `unbind_user`, lines 63-107) -/

/-- A POST to `/v2/systems/{system_id}/associations`: the `op` field is
`"add"` or `"remove"`, the body also carries `type: "user"` and the user id. -/
inductive Req where
  | add (system_id user_id : Nat)
  | remove (system_id user_id : Nat)
deriving DecidableEq

/-- `requests.Response.ok`: true unless `raise_for_status` would raise,
i.e. unless the status code is in `[400, 600)`. -/
def resOk (status : Nat) : Bool := decide (¬ (400 ≤ status ∧ status < 600))

/-- The directory service, modelled as a deterministic oracle: given the
history of requests already issued and the next request, it returns the
HTTP status code of the response. -/
def Service : Type := List Req → Req → Nat

/-- `unbind_user` from `main.py` lines 63-72: one `op: "remove"` POST, the
return value is `res.ok`. Returns the flag plus the extended history. -/
def unbind_user (svc : Service) (hist : List Req) (system_id user_id : Nat) :
    Bool × List Req :=
  let st := svc hist (Req.remove system_id user_id)
  (resOk st, hist ++ [Req.remove system_id user_id])

/-- `bind_user` from `main.py` lines 75-107: one `op: "add"` POST; on a 409
status, one `unbind_user` call followed by a second `op: "add"` POST (the
branch on `res.status_code < 300` there only prints); the return value is
`res.ok` of the last response received. -/
def bind_user (svc : Service) (hist : List Req) (system_id user_id : Nat) :
    Bool × List Req :=
  let st := svc hist (Req.add system_id user_id)
  let hist1 := hist ++ [Req.add system_id user_id]
  if st = 409 then
    let hist2 := (unbind_user svc hist1 system_id user_id).2
    let st2 := svc hist2 (Req.add system_id user_id)
    (resOk st2, hist2 ++ [Req.add system_id user_id])
  else
    (resOk st, hist1)

/-! ### Paginated fetcher (`get_all`, lines 23-50) -/

/-- One loop iteration state of `get_all`. The endpoint oracle maps the
`skip` query parameter to `none` (a raised `RequestException`, which the
`except` clause turns into a `break`) or `some items` (the item list
extracted from the body). `seen` is `seen_pages` (membership in a list of
item lists models membership of `str(items)` in the set of fingerprints),
`results` the accumulator, `count` the number of requests issued so far.
The `fuel` argument only bounds the number of iterations we are willing to
unfold; a `some` result means the Python loop genuinely terminated. -/
def getAllAux {α : Type} [DecidableEq α] (endpoint : Nat → Option (List α)) :
    Nat → Nat → List (List α) → List α → Nat → Option (List α × Nat)
  | 0, _, _, _, _ => none
  | fuel + 1, skip, seen, results, count =>
    match endpoint skip with
    | none => some (results, count + 1)
    | some items =>
      if items = [] ∨ items ∈ seen then some (results, count + 1)
      else getAllAux endpoint fuel (skip + 100) (items :: seen) (results ++ items) (count + 1)

/-- `get_all` from `main.py` lines 23-50: start at `skip = 0` with page size
100, empty fingerprint set and empty accumulator. Returns the accumulated
items together with the number of page requests issued. -/
def get_all {α : Type} [DecidableEq α] (endpoint : Nat → Option (List α)) (fuel : Nat) :
    Option (List α × Nat) :=
  getAllAux endpoint fuel 0 [] [] 0

/-! ### Recency filter (`was_created_within_last_24_hours`, lines 110-117) -/

/-- A parsed `datetime` as produced by `datetime.strptime` on the two
formats the script tries. -/
structure DateTime where
  year : Nat
  month : Nat
  day : Nat
  hour : Nat
  minute : Nat
  second : Nat
  micro : Nat
deriving DecidableEq

def dv (c : Char) : Nat := c.toNat - 48

def isDigitCh (c : Char) : Bool := decide (48 ≤ c.toNat ∧ c.toNat ≤ 57)

/-- `%Y`: exactly four digits. -/
def pY : List Char → Option (Nat × List Char)
  | a :: b :: c :: d :: r =>
    if isDigitCh a ∧ isDigitCh b ∧ isDigitCh c ∧ isDigitCh d then
      some (1000 * dv a + 100 * dv b + 10 * dv c + dv d, r)
    else none
  | _ => none

/-- `%m`, the CPython `_strptime` pattern `1[0-2]|0[1-9]|[1-9]`. -/
def pMonth : List Char → Option (Nat × List Char)
  | a :: b :: r =>
    if a = '1' ∧ '0' ≤ b ∧ b ≤ '2' then some (10 + dv b, r)
    else if a = '0' ∧ '1' ≤ b ∧ b ≤ '9' then some (dv b, r)
    else if '1' ≤ a ∧ a ≤ '9' then some (dv a, b :: r)
    else none
  | [a] => if '1' ≤ a ∧ a ≤ '9' then some (dv a, []) else none
  | [] => none

/-- `%d`, pattern `3[01]|[12]\d|0[1-9]|[1-9]`. -/
def pDay : List Char → Option (Nat × List Char)
  | a :: b :: r =>
    if a = '3' ∧ (b = '0' ∨ b = '1') then some (30 + dv b, r)
    else if (a = '1' ∨ a = '2') ∧ isDigitCh b then some (10 * dv a + dv b, r)
    else if a = '0' ∧ '1' ≤ b ∧ b ≤ '9' then some (dv b, r)
    else if '1' ≤ a ∧ a ≤ '9' then some (dv a, b :: r)
    else none
  | [a] => if '1' ≤ a ∧ a ≤ '9' then some (dv a, []) else none
  | [] => none

/-- `%H`, pattern `2[0-3]|[0-1]\d|\d`. -/
def pHour : List Char → Option (Nat × List Char)
  | a :: b :: r =>
    if a = '2' ∧ '0' ≤ b ∧ b ≤ '3' then some (20 + dv b, r)
    else if (a = '0' ∨ a = '1') ∧ isDigitCh b then some (10 * dv a + dv b, r)
    else if isDigitCh a then some (dv a, b :: r)
    else none
  | [a] => if isDigitCh a then some (dv a, []) else none
  | [] => none

/-- `%M`, pattern `[0-5]\d|\d`. -/
def pMinute : List Char → Option (Nat × List Char)
  | a :: b :: r =>
    if '0' ≤ a ∧ a ≤ '5' ∧ isDigitCh b then some (10 * dv a + dv b, r)
    else if isDigitCh a then some (dv a, b :: r)
    else none
  | [a] => if isDigitCh a then some (dv a, []) else none
  | [] => none

/-- `%S`, pattern `6[0-1]|[0-5]\d|\d`. -/
def pSecond : List Char → Option (Nat × List Char)
  | a :: b :: r =>
    if a = '6' ∧ (b = '0' ∨ b = '1') then some (60 + dv b, r)
    else if '0' ≤ a ∧ a ≤ '5' ∧ isDigitCh b then some (10 * dv a + dv b, r)
    else if isDigitCh a then some (dv a, b :: r)
    else none
  | [a] => if isDigitCh a then some (dv a, []) else none
  | [] => none

/-- `%f`, pattern `[0-9]{1,6}` followed (in both formats used) by a
non-digit literal, so any digit run longer than six characters fails;
the value is right-padded with zeros to microseconds. -/
def pFrac (s : List Char) : Option (Nat × List Char) :=
  let run := s.takeWhile isDigitCh
  if run.length = 0 ∨ 6 < run.length then none
  else some ((run.foldl (fun acc c => 10 * acc + dv c) 0) * 10 ^ (6 - run.length),
    s.drop run.length)

/-- A literal character of the format string; CPython compiles the format
with `re.IGNORECASE`, so literals match case-insensitively. -/
def litCh (c : Char) : List Char → Option (List Char)
  | a :: r => if a.toLower = c.toLower then some r else none
  | [] => none

def isLeapYear (y : Nat) : Bool := y % 4 == 0 && (y % 100 != 0 || y % 400 == 0)

def daysInMonth (y m : Nat) : Nat :=
  if m = 2 then (if isLeapYear y then 29 else 28)
  else if m = 4 ∨ m = 6 ∨ m = 9 ∨ m = 11 then 30
  else 31

/-- The validation performed by the `datetime` constructor after a
successful regex match (the regexes already bound month, hour, minute;
day-of-month and leap seconds are rejected here, as is year zero). -/
def mkDateTime (y mo d h mi s f : Nat) : Option DateTime :=
  if 1 ≤ y ∧ y ≤ 9999 ∧ 1 ≤ mo ∧ mo ≤ 12 ∧ 1 ≤ d ∧ d ≤ daysInMonth y mo ∧
      h ≤ 23 ∧ mi ≤ 59 ∧ s ≤ 59 ∧ f ≤ 999999 then
    some ⟨y, mo, d, h, mi, s, f⟩
  else none

/-- `datetime.strptime(ts, "%Y-%m-%dT%H:%M:%S.%fZ")`. -/
def parseFracTimestampL (s : List Char) : Option DateTime := do
  let (y, s1) ← pY s
  let s2 ← litCh '-' s1
  let (mo, s3) ← pMonth s2
  let s4 ← litCh '-' s3
  let (d, s5) ← pDay s4
  let s6 ← litCh 'T' s5
  let (h, s7) ← pHour s6
  let s8 ← litCh ':' s7
  let (mi, s9) ← pMinute s8
  let s10 ← litCh ':' s9
  let (sec, s11) ← pSecond s10
  let s12 ← litCh '.' s11
  let (f, s13) ← pFrac s12
  let s14 ← litCh 'Z' s13
  if s14 = [] then mkDateTime y mo d h mi sec f else none

/-- `datetime.strptime(ts, "%Y-%m-%dT%H:%M:%SZ")`. -/
def parseNoFracTimestampL (s : List Char) : Option DateTime := do
  let (y, s1) ← pY s
  let s2 ← litCh '-' s1
  let (mo, s3) ← pMonth s2
  let s4 ← litCh '-' s3
  let (d, s5) ← pDay s4
  let s6 ← litCh 'T' s5
  let (h, s7) ← pHour s6
  let s8 ← litCh ':' s7
  let (mi, s9) ← pMinute s8
  let s10 ← litCh ':' s9
  let (sec, s11) ← pSecond s10
  let s12 ← litCh 'Z' s11
  if s12 = [] then mkDateTime y mo d h mi sec 0 else none

def parseFracTimestamp (ts : String) : Option DateTime :=
  parseFracTimestampL ts.data

def parseNoFracTimestamp (ts : String) : Option DateTime :=
  parseNoFracTimestampL ts.data

/-- Lines 113-116: try the fractional format, and on `ValueError` the plain
format; `none` means both raise. -/
def parseTimestamp (ts : String) : Option DateTime :=
  match parseFracTimestamp ts with
  | some dt => some dt
  | none => parseNoFracTimestamp ts

/-- Days before year `y` on the proleptic Gregorian calendar
(`datetime.date._days_before_year`). -/
def daysBeforeYear (y : Nat) : Nat :=
  365 * (y - 1) + (y - 1) / 4 - (y - 1) / 100 + (y - 1) / 400

/-- Days in year `y` before month `m`. -/
def daysBeforeMonth (y m : Nat) : Nat :=
  (List.range (m - 1)).foldl (fun acc i => acc + daysInMonth y (i + 1)) 0

/-- `datetime.toordinal`-style day count (offset by one, which cancels in
every subtraction). -/
def daysFromCivil (y m d : Nat) : Nat :=
  daysBeforeYear y + daysBeforeMonth y m + (d - 1)

/-- A `datetime` as a microsecond count; `datetime` subtraction is exactly
subtraction of these counts. -/
def toMicro (dt : DateTime) : Int :=
  Int.ofNat ((daysFromCivil dt.year dt.month dt.day * 86400 + dt.hour * 3600 +
    dt.minute * 60 + dt.second) * 1000000 + dt.micro)

/-- Microseconds in `timedelta(hours=24)`. -/
def microsPerDay : Int := 86400000000

/-- `was_created_within_last_24_hours` from `main.py` lines 110-117, with
`datetime.utcnow()` passed in as `now` (microseconds). `Except.error ()`
models the `ValueError` that escapes when neither format parses. -/
def was_created_within_last_24_hours (now : Int) (timestamp : Option String) :
    Except Unit Bool :=
  match timestamp with
  | none => Except.ok false
  | some ts =>
    if ts = "" then Except.ok false
    else
      match parseTimestamp ts with
      | some created_time => Except.ok (decide (now - toMicro created_time ≤ microsPerDay))
      | none => Except.error ()

/-- A system record as read by `main`; all fields come from `.get` calls. -/
structure SystemRec where
  id : Option Nat
  hostname : Option String
  created : Option String
deriving DecidableEq

/-- `main.py` line 134, the list comprehension
`[sys for sys in systems if was_created_within_last_24_hours(sys.get("created"))]`:
predicates are evaluated left to right and the first raised `ValueError`
aborts the whole comprehension (and hence the run, since nothing catches it). -/
def recentSystemsE (now : Int) : List SystemRec → Except Unit (List SystemRec)
  | [] => Except.ok []
  | s :: rest =>
    match was_created_within_last_24_hours now s.created with
    | Except.error e => Except.error e
    | Except.ok b =>
      match recentSystemsE now rest with
      | Except.error e => Except.error e
      | Except.ok tail => Except.ok (if b then s :: tail else tail)

/-! ### Helper lemmas -/

/-- While skipping a matched occurrence, the scanner consumes exactly the
characters of that occurrence. -/
theorem replaceDelAux_skip (p : Char) (ps : List Char) :
    ∀ xs l : List Char, replaceDelAux p ps xs.length (xs ++ l) = replaceDelAux p ps 0 l := by
  intro xs
  induction xs with
  | nil => intro l; rfl
  | cons x xs ih => intro l; simpa only [List.length_cons, List.cons_append,
      replaceDelAux] using ih l

/-- Removing a non-empty pattern that sits at the head of the string just
skips it: one unfolding of the single left-to-right pass. -/
theorem replaceDel_head_match (p : Char) (ps l : List Char) :
    replaceDel p ps (p :: (ps ++ l)) = replaceDel p ps l := by
  have hpre : (p :: ps).isPrefixOf (p :: (ps ++ l)) = true := by
    rw [List.isPrefixOf_iff_prefix]
    exact ⟨l, by simp⟩
  simp only [replaceDel, replaceDelAux, hpre, if_true]
  exact replaceDelAux_skip p ps ps l

/-- The empty string is a substring of every string. -/
theorem isSubstr_nil (s : List Char) : isSubstr [] s = true := by
  cases s <;> simp [isSubstr, List.isPrefixOf]

/-! ### Claim C8 -/

/-- C8: for every hostname string `h`,
`normalize_hostname ("WIN-" ++ h) = normalize_hostname h`: the single
left-to-right `str.replace("WIN-", "")` pass consumes the prepended prefix
first and then proceeds exactly as it would on `h` alone. -/
theorem normalize_hostname_strips_win_prefix (h : String) :
    normalize_hostname ("WIN-" ++ h) = normalize_hostname h := by
  have hdata : ("WIN-" ++ h).data = 'W' :: (['I', 'N', '-'] ++ h.data) := by
    rw [String.data_append]
    rfl
  unfold normalize_hostname normalize_hostnameL
  rw [hdata, replaceDel_head_match]

/-! ### Claim C1 -/

/-- C1 counterexample: as invoked by the orchestrator, the hostname
`"WIN-JDOE-LAPTOP"` is lowercased (line 139) before `normalize_hostname`
runs, so the case-sensitive `"WIN-"` strip never fires and the cleaned
name is not `"jdoelaptop"`. -/
theorem orchestrator_clean_name_not_jdoelaptop :
    ¬ (clean_name_of (some "WIN-JDOE-LAPTOP") = "jdoelaptop".data) := by
  decide

/-- C1 amended: for users `[{id 1, username "jdoe"}]` and hostname
`"WIN-JDOE-LAPTOP"`, the normalization performed before matching yields
`"winjdoelaptop"` (not `"jdoelaptop"`, because the orchestrator lowercases
first and the `"WIN-"` strip is case-sensitive), the username normalizes to
`"jdoe"`, and since `"jdoe"` is still a substring the matcher selects the
user with id 1. -/
theorem orchestrator_match_win_jdoe_laptop :
    clean_name_of (some "WIN-JDOE-LAPTOP") = "winjdoelaptop".data ∧
    normalize_usernameL (some "jdoe") = "jdoe".data ∧
    (find_match [⟨1, some "jdoe"⟩] (clean_name_of (some "WIN-JDOE-LAPTOP"))).map
      UserRec.id = some 1 := by
  refine ⟨by decide, by decide, by decide⟩

/-! ### Claim C9 -/

/-- C9: a user whose `username` is missing or empty normalizes to the empty
string, which is a substring of every cleaned hostname, so whenever such a
user precedes all matching users in collection order the matcher selects it. -/
theorem empty_username_matches_any_hostname (hostname : Option String)
    (pre post : List UserRec) (u : UserRec)
    (hu : u.username = none ∨ u.username = some "")
    (hpre : ∀ v ∈ pre, isSubstr (normalize_usernameL v.username) (clean_name_of hostname) = false) :
    normalize_usernameL u.username = [] ∧
    find_match (pre ++ u :: post) (clean_name_of hostname) = some u := by
  have hempty : normalize_usernameL u.username = [] := by
    rcases hu with h | h <;> rw [h] <;> rfl
  refine ⟨hempty, ?_⟩
  induction pre with
  | nil =>
    simp only [List.nil_append, find_match, List.find?_cons, hempty,
      isSubstr_nil (clean_name_of hostname)]
  | cons a rest ih =>
    have ha : isSubstr (normalize_usernameL a.username) (clean_name_of hostname) = false :=
      hpre a (List.mem_cons_self a rest)
    have hrest : ∀ v ∈ rest, isSubstr (normalize_usernameL v.username) (clean_name_of hostname) = false :=
      fun v hv => hpre v (List.mem_cons_of_mem a hv)
    simpa only [List.cons_append, find_match, List.find?_cons, ha] using ih hrest

/-- C9 witness: user id 7 with no username is matched for hostname
`"WIN-X"` once the non-matching user id 5 before it is passed over. -/
theorem empty_username_matches_any_hostname_witness :
    normalize_usernameL (UserRec.mk 7 none).username = [] ∧
    find_match [⟨5, some "zz"⟩, ⟨7, none⟩] (clean_name_of (some "WIN-X")) =
      some ⟨7, none⟩ :=
  empty_username_matches_any_hostname (some "WIN-X") [⟨5, some "zz"⟩] []
    ⟨7, none⟩ (Or.inl rfl) (by decide)

/-! ### Claim C2 -/

/-- C2: if the first bind POST for a pair returns 409, `bind_user` issues
exactly one unbind for the same pair followed by exactly one further bind
(two binds total, in that order), and the returned boolean is `res.ok` of
whatever status the final bind attempt gets — a second conflict receives no
further handling. -/
theorem bind_user_conflict_repair (svc : Service) (system_id user_id : Nat)
    (h409 : svc [] (Req.add system_id user_id) = 409) :
    (bind_user svc [] system_id user_id).2 =
      [Req.add system_id user_id, Req.remove system_id user_id, Req.add system_id user_id] ∧
    (bind_user svc [] system_id user_id).1 =
      resOk (svc [Req.add system_id user_id, Req.remove system_id user_id]
        (Req.add system_id user_id)) := by
  simp [bind_user, unbind_user, h409]

/-- C2 witness: a service answering 409 on the first request and 200
afterwards yields the add/remove/add trace and a `true` result. -/
theorem bind_user_conflict_repair_witness :
    (bind_user (fun hist _ => if hist = [] then 409 else 200) [] 1 2).2 =
      [Req.add 1 2, Req.remove 1 2, Req.add 1 2] ∧
    (bind_user (fun hist _ => if hist = [] then 409 else 200) [] 1 2).1 =
      resOk ((fun (hist : List Req) (_ : Req) => if hist = [] then 409 else 200)
        [Req.add 1 2, Req.remove 1 2] (Req.add 1 2)) :=
  bind_user_conflict_repair (fun hist _ => if hist = [] then 409 else 200) 1 2 rfl

/-! ### Pagination run lemma -/

/-- Running `get_all`'s loop from an arbitrary state: if the endpoint
answers the next `ps.length` skips with the pages of `ps` — all non-empty,
none already fingerprinted, pairwise distinct — and then terminates the
loop (a raised request error or an empty page), every page is accumulated
in order and one request is issued per loop iteration. -/
theorem getAllAux_run {α : Type} [DecidableEq α] (endpoint : Nat → Option (List α))
    (ps : List (List α)) :
    ∀ (fuel skip : Nat) (seen : List (List α)) (results : List α) (count : Nat),
      (∀ i, ∀ h : i < ps.length, endpoint (skip + 100 * i) = some (ps.get ⟨i, h⟩)) →
      (endpoint (skip + 100 * ps.length) = none ∨
        endpoint (skip + 100 * ps.length) = some []) →
      (∀ q ∈ ps, q ≠ []) →
      (∀ q ∈ ps, q ∉ seen) →
      ps.Nodup →
      ps.length + 1 ≤ fuel →
      getAllAux endpoint fuel skip seen results count =
        some (results ++ ps.flatten, count + (ps.length + 1)) := by
  induction ps with
  | nil =>
    intro fuel skip seen results count hpages hterm hne hseen hnd hfuel
    obtain ⟨f, rfl⟩ : ∃ f, fuel = f + 1 := ⟨fuel - 1, by omega⟩
    simp only [List.length_nil, Nat.mul_zero, Nat.add_zero] at hterm
    rcases hterm with h | h <;> simp [getAllAux, h]
  | cons page ps ih =>
    intro fuel skip seen results count hpages hterm hne hseen hnd hfuel
    obtain ⟨f, rfl⟩ : ∃ f, fuel = f + 1 := ⟨fuel - 1, by simp at hfuel; omega⟩
    have h0 : endpoint skip = some page := by
      have h := hpages 0 (by simp)
      simpa using h
    have hpne : page ≠ [] := hne page (List.mem_cons_self page ps)
    have hpseen : page ∉ seen := hseen page (List.mem_cons_self page ps)
    have hnd' := List.nodup_cons.mp hnd
    have hstep : getAllAux endpoint (f + 1) skip seen results count =
        getAllAux endpoint f (skip + 100) (page :: seen) (results ++ page) (count + 1) := by
      simp [getAllAux, h0, hpne, hpseen]
    rw [hstep]
    have hrec := ih f (skip + 100) (page :: seen) (results ++ page) (count + 1)
      (by
        intro i hi
        have h := hpages (i + 1) (by simpa using Nat.succ_lt_succ hi)
        have harith : skip + 100 * (i + 1) = skip + 100 + 100 * i := by ring
        rw [harith] at h
        simpa using h)
      (by
        have harith : skip + 100 + 100 * ps.length = skip + 100 * (page :: ps).length := by
          simp [List.length_cons]; ring
        rw [harith]
        exact hterm)
      (fun q hq => hne q (List.mem_cons_of_mem page hq))
      (by
        intro q hq
        rw [List.mem_cons]
        rintro (rfl | hqs)
        · exact hnd'.1 hq
        · exact hseen q (List.mem_cons_of_mem page hq) hqs)
      hnd'.2
      (by simp at hfuel ⊢; omega)
    rw [hrec]
    simp [List.flatten, List.append_assoc]
    omega

/-! ### Claim C3 -/

/-- C3: an endpoint that answers every request with the same non-empty item
list makes `get_all` terminate after exactly two page fetches: the first
page is accumulated, the second is fingerprint-identical and breaks the
loop, independent of how much fuel is available. -/
theorem get_all_constant_page_two_fetches {α : Type} [DecidableEq α]
    (endpoint : Nat → Option (List α)) (page : List α) (fuel : Nat)
    (hconst : ∀ skip, endpoint skip = some page)
    (hne : page ≠ []) (hfuel : 2 ≤ fuel) :
    get_all endpoint fuel = some (page, 2) := by
  obtain ⟨f, rfl⟩ : ∃ f, fuel = f + 2 := ⟨fuel - 2, by omega⟩
  simp [get_all, getAllAux, hconst, hne]

/-- C3 witness: the constant endpoint returning `[3]` stops after two
fetches with `[3]` accumulated. -/
theorem get_all_constant_page_two_fetches_witness :
    get_all (fun _ => some [(3 : Nat)]) 5 = some ([3], 2) :=
  get_all_constant_page_two_fetches (fun _ => some [(3 : Nat)]) [3] 5
    (fun _ => rfl) (by decide) (by decide)

/-! ### Claim C4 -/

/-- C4 counterexample: two successful non-empty pages followed by an empty
page, where the second page's item list renders identically to the first.
The duplicate-page guard stops after the second fetch, so `get_all` returns
`[7]`, not the concatenation `[7, 7]` of the two pages. -/
theorem get_all_duplicate_pages_counterexample :
    get_all (fun skip => if skip = 0 then some [(7 : Nat)]
      else if skip = 100 then some [7] else some []) 10 = some ([7], 2) ∧
    [(7 : Nat)] ≠ [7, 7] := by
  refine ⟨by decide, by decide⟩

/-- C4 amended: for every sequence of `N` successful responses each
carrying a non-empty item list, *whose fingerprints are pairwise distinct*,
followed by a response with an empty item list, `get_all` returns exactly
the concatenation of the `N` pages' items in fetch order (and issues
`N + 1` requests). Without the distinctness proviso the duplicate-page
guard stops at the first repeated page. -/
theorem get_all_returns_concatenation {α : Type} [DecidableEq α]
    (endpoint : Nat → Option (List α)) (ps : List (List α)) (fuel : Nat)
    (hpages : ∀ i, ∀ h : i < ps.length, endpoint (100 * i) = some (ps.get ⟨i, h⟩))
    (hterm : endpoint (100 * ps.length) = some [])
    (hne : ∀ q ∈ ps, q ≠ [])
    (hnd : ps.Nodup)
    (hfuel : ps.length + 1 ≤ fuel) :
    get_all endpoint fuel = some (ps.flatten, ps.length + 1) := by
  have h := getAllAux_run endpoint ps fuel 0 [] [] 0
    (by simpa using hpages) (Or.inr (by simpa using hterm))
    hne (by simp) hnd hfuel
  simpa [get_all] using h

/-- C4 witness: pages `[1]` and `[2]` followed by an empty page concatenate
to `[1, 2]` in three requests. -/
theorem get_all_returns_concatenation_witness :
    get_all (fun skip => if skip = 0 then some [(1 : Nat)]
      else if skip = 100 then some [2] else some []) 5 = some ([1, 2], 3) :=
  get_all_returns_concatenation
    (fun skip => if skip = 0 then some [(1 : Nat)]
      else if skip = 100 then some [2] else some [])
    [[1], [2]] 5 (by decide) (by decide) (by decide) (by decide) (by decide)

/-! ### Claim C5 -/

/-- C5: if pagination reaches its `N`-th request having fetched `N`
non-empty, pairwise-distinct pages and that request raises a
transport-level error, `get_all` stops (no further requests: exactly
`N + 1` were issued) and returns exactly the items accumulated before the
failure; the exception is caught, so the call returns normally. -/
theorem get_all_error_returns_partial {α : Type} [DecidableEq α]
    (endpoint : Nat → Option (List α)) (ps : List (List α)) (fuel : Nat)
    (hpages : ∀ i, ∀ h : i < ps.length, endpoint (100 * i) = some (ps.get ⟨i, h⟩))
    (hfail : endpoint (100 * ps.length) = none)
    (hne : ∀ q ∈ ps, q ≠ [])
    (hnd : ps.Nodup)
    (hfuel : ps.length + 1 ≤ fuel) :
    get_all endpoint fuel = some (ps.flatten, ps.length + 1) := by
  have h := getAllAux_run endpoint ps fuel 0 [] [] 0
    (by simpa using hpages) (Or.inl (by simpa using hfail))
    hne (by simp) hnd hfuel
  simpa [get_all] using h

/-- C5 witness: pages `[1]` and `[2]` fetched, then a request error; the
partial result `[1, 2]` is returned after three requests. -/
theorem get_all_error_returns_partial_witness :
    get_all (fun skip => if skip = 0 then some [(1 : Nat)]
      else if skip = 100 then some [2] else none) 5 = some ([1, 2], 3) :=
  get_all_error_returns_partial
    (fun skip => if skip = 0 then some [(1 : Nat)]
      else if skip = 100 then some [2] else none)
    [[1], [2]] 5 (by decide) (by decide) (by decide) (by decide) (by decide)

/-! ### Recency helper lemmas -/

theorem parseTimestamp_empty : parseTimestamp "" = none := by decide

/-- When one of the two `strptime` formats parses the timestamp, the
recency check returns the 24-hour comparison on the parsed time. -/
theorem was_created_of_parse (now : Int) (ts : String) (dt : DateTime)
    (h : parseTimestamp ts = some dt) :
    was_created_within_last_24_hours now (some ts) =
      Except.ok (decide (now - toMicro dt ≤ microsPerDay)) := by
  have hne : ts ≠ "" := by
    rintro rfl
    rw [parseTimestamp_empty] at h
    cases h
  simp [was_created_within_last_24_hours, hne, h]

/-- A single raising timestamp anywhere in the list makes the whole
filtering comprehension raise. -/
theorem recentSystemsE_error_of_mem (now : Int) :
    ∀ systems : List SystemRec, ∀ s ∈ systems,
      was_created_within_last_24_hours now s.created = Except.error () →
      recentSystemsE now systems = Except.error () := by
  intro systems
  induction systems with
  | nil => intro s hs; cases hs
  | cons a rest ih =>
    intro s hs herr
    rcases List.mem_cons.mp hs with rfl | hmem
    · simp [recentSystemsE, herr]
    · cases hwc : was_created_within_last_24_hours now a.created with
      | error e => simp [recentSystemsE, hwc]
      | ok b => simp [recentSystemsE, hwc, ih s hmem herr]

/-! ### Claim C6 -/

/-- C6: the recency filter returns `true` for a timestamp parsing to
23 hours before the current time, `false` for one parsing to 25 hours
before, and `false` when the `created` field is absent. -/
theorem recency_filter_boundaries (now : Int) (ts1 ts2 : String) (dt1 dt2 : DateTime)
    (h1 : parseTimestamp ts1 = some dt1) (e1 : now - toMicro dt1 = 82800000000)
    (h2 : parseTimestamp ts2 = some dt2) (e2 : now - toMicro dt2 = 90000000000) :
    was_created_within_last_24_hours now (some ts1) = Except.ok true ∧
    was_created_within_last_24_hours now (some ts2) = Except.ok false ∧
    was_created_within_last_24_hours now none = Except.ok false := by
  refine ⟨?_, ?_, rfl⟩
  · rw [was_created_of_parse now ts1 dt1 h1, e1]
    rfl
  · rw [was_created_of_parse now ts2 dt2 h2, e2]
    rfl

/-- C6 witness: with the current time at 2026-10-12T00:00:00, the system
created at 2026-10-11T01:00:00Z (23 h earlier) passes the filter, the one
created at 2026-10-10T23:00:00Z (25 h earlier) does not, nor does a system
with no `created` value. -/
theorem recency_filter_boundaries_witness :
    was_created_within_last_24_hours (toMicro ⟨2026, 10, 12, 0, 0, 0, 0⟩)
      (some "2026-10-11T01:00:00Z") = Except.ok true ∧
    was_created_within_last_24_hours (toMicro ⟨2026, 10, 12, 0, 0, 0, 0⟩)
      (some "2026-10-10T23:00:00Z") = Except.ok false ∧
    was_created_within_last_24_hours (toMicro ⟨2026, 10, 12, 0, 0, 0, 0⟩)
      none = Except.ok false :=
  recency_filter_boundaries (toMicro ⟨2026, 10, 12, 0, 0, 0, 0⟩)
    "2026-10-11T01:00:00Z" "2026-10-10T23:00:00Z"
    ⟨2026, 10, 11, 1, 0, 0, 0⟩ ⟨2026, 10, 10, 23, 0, 0, 0⟩
    (by decide) (by decide) (by decide) (by decide)

/-! ### Claim C7 -/

/-- C7: a non-empty timestamp string matching neither `strptime` format
makes the recency check raise, and that `ValueError` propagates out of the
orchestrator's filtering comprehension, so the whole filter — and with it
the run, since the filter runs before any system is processed — aborts. -/
theorem unparseable_timestamp_aborts_run (now : Int) (systems : List SystemRec)
    (s : SystemRec) (ts : String)
    (hmem : s ∈ systems) (hcr : s.created = some ts) (hne : ts ≠ "")
    (hf : parseFracTimestamp ts = none) (hnf : parseNoFracTimestamp ts = none) :
    was_created_within_last_24_hours now (some ts) = Except.error () ∧
    recentSystemsE now systems = Except.error () := by
  have herr : was_created_within_last_24_hours now (some ts) = Except.error () := by
    simp [was_created_within_last_24_hours, hne, parseTimestamp, hf, hnf]
  refine ⟨herr, recentSystemsE_error_of_mem now systems s hmem ?_⟩
  rw [hcr]
  exact herr

/-- C7 witness: the timestamp `"not-a-date"` raises and aborts the filter
over a one-element system list. -/
theorem unparseable_timestamp_aborts_run_witness :
    was_created_within_last_24_hours 0 (some "not-a-date") = Except.error () ∧
    recentSystemsE 0 [⟨some 1, some "host", some "not-a-date"⟩] = Except.error () :=
  unparseable_timestamp_aborts_run 0 [⟨some 1, some "host", some "not-a-date"⟩]
    ⟨some 1, some "host", some "not-a-date"⟩ "not-a-date"
    (by decide) (by decide) (by decide) (by decide) (by decide)

/-! ### Claim C10 -/

/-- C10: a timestamp that parses to a time strictly later than the current
time makes the difference negative, hence at most 24 hours, so the system
counts as recent. -/
theorem future_timestamp_treated_recent (now : Int) (ts : String) (dt : DateTime)
    (h : parseTimestamp ts = some dt) (hfut : now < toMicro dt) :
    was_created_within_last_24_hours now (some ts) = Except.ok true := by
  rw [was_created_of_parse now ts dt h]
  have hle : now - toMicro dt ≤ microsPerDay := by
    have : (0 : Int) ≤ microsPerDay := by decide
    omega
  simp [hle]

/-- C10 witness: at current time 0, the far-future timestamp
2026-10-11T01:00:00Z is treated as recent. -/
theorem future_timestamp_treated_recent_witness :
    was_created_within_last_24_hours 0 (some "2026-10-11T01:00:00Z") = Except.ok true :=
  future_timestamp_treated_recent 0 "2026-10-11T01:00:00Z"
    ⟨2026, 10, 11, 1, 0, 0, 0⟩ (by decide) (by decide)
